import Mathlib

/-!
Shallow embedding of the nginx log watcher (`watcher.py`): the line parser,
the bounded error-rate window, the failover detector, the cooldown gating and
the Slack notifier, together with theorems about the specified properties.

Strings are modelled as `List Char`, Python unbounded integers as `ℤ`, and
`time.time()` float timestamps / float arithmetic as exact rationals `ℚ`.
-/

/-! ## Line parser (LOG_PATTERN and parse_log_line, watcher.py lines 29-34 and 155-180)

`LOG_PATTERN` is the regex
`pool="([^"]*)" release="([^"]*)" upstream_status="([^"]*)" upstream_addr="([^"]*)"`
used with `re.search`.  For this pattern a match at a given start position is
deterministic: each `[^"]*` group extends exactly to the next `"` (backtracking
cannot help, because a shorter group would require a literal `"` at a position
known to hold a non-quote character), so `search` returns the leftmost position
where the literal-delimited pattern matches.  `matchAt` is that deterministic
single-position matcher and `searchPat` is the leftmost search. -/

/-- Drop the literal `p` from the front of `l`; `none` if `l` does not start with `p`. -/
def dropLit : List Char → List Char → Option (List Char)
  | [], l => some l
  | _ :: _, [] => none
  | p :: ps, c :: cs => if c = p then dropLit ps cs else none

/-- Consume a `[^"]*"` group: the characters before the next `"` together with
the rest of the input after that quote; `none` if no closing quote exists. -/
def readValue : List Char → Option (List Char × List Char)
  | [] => none
  | c :: rest =>
    if c = '"' then some ([], rest)
    else
      match readValue rest with
      | none => none
      | some (v, r) => some (c :: v, r)

/-- Literal before the `pool` group in LOG_PATTERN. -/
def poolPat : List Char := "pool=\"".data

/-- Literal between the `pool` and `release` groups in LOG_PATTERN. -/
def releasePat : List Char := " release=\"".data

/-- Literal between the `release` and `upstream_status` groups in LOG_PATTERN. -/
def statusPat : List Char := " upstream_status=\"".data

/-- Literal between the `upstream_status` and `upstream_addr` groups in LOG_PATTERN. -/
def addrPat : List Char := " upstream_addr=\"".data

/-- The four raw captured groups of LOG_PATTERN (match.groupdict()). -/
structure RawFields where
  pool : List Char
  release : List Char
  upstream_status : List Char
  upstream_addr : List Char
  deriving DecidableEq

/-- Match LOG_PATTERN at the start of `l` (deterministic, see above): the
literals and `[^"]*"` groups in sequence, failing fast on the first mismatch. -/
def matchAt (l : List Char) : Option RawFields :=
  (dropLit poolPat l).bind fun l1 =>
  (readValue l1).bind fun p1 =>
  (dropLit releasePat p1.2).bind fun l3 =>
  (readValue l3).bind fun p2 =>
  (dropLit statusPat p2.2).bind fun l5 =>
  (readValue l5).bind fun p3 =>
  (dropLit addrPat p3.2).bind fun l7 =>
  (readValue l7).bind fun p4 =>
  some ⟨p1.1, p2.1, p3.1, p4.1⟩

/-- `re.search` with LOG_PATTERN: try `matchAt` at every position, leftmost first. -/
def searchPat : List Char → Option RawFields
  | [] => none
  | c :: rest =>
    match matchAt (c :: rest) with
    | some r => some r
    | none => searchPat rest

/-- Model of Python `str.split(',')` on characters: always returns a nonempty
list of comma-free tokens; splitting the empty string yields `[[]]`. -/
def splitComma : List Char → List (List Char)
  | [] => [[]]
  | c :: rest =>
    if c = ',' then [] :: splitComma rest
    else (c :: (splitComma rest).headD []) :: (splitComma rest).tail

/-- Python whitespace characters recognised by `str.strip()` (ASCII range). -/
def isPySpace (c : Char) : Bool :=
  c = ' ' || c = '\t' || c = '\n' || c = '\r' || c = '\x0b' || c = '\x0c'

/-- Model of Python `str.strip()`: drop whitespace from both ends. -/
def pyStrip (l : List Char) : List Char :=
  ((l.dropWhile isPySpace).reverse.dropWhile isPySpace).reverse

/-- Decimal digit test. -/
def isDigitCh (c : Char) : Bool := '0' ≤ c && c ≤ '9'

/-- Numeric value of a decimal digit character. -/
def digitVal (c : Char) : ℕ := c.toNat - 48

/-- Remaining digits of an integer literal: `(digit | underscore digit)*`,
accumulating the value (Python allows single underscores between digits). -/
def digitsRest (acc : ℕ) : List Char → Option ℕ
  | [] => some acc
  | '_' :: c :: rest => if isDigitCh c then digitsRest (acc * 10 + digitVal c) rest else none
  | c :: rest => if isDigitCh c then digitsRest (acc * 10 + digitVal c) rest else none

/-- An unsigned integer literal: at least one digit, then `digitsRest`. -/
def pyIntDigits : List Char → Option ℕ
  | [] => none
  | c :: rest => if isDigitCh c then digitsRest (digitVal c) rest else none

/-- Model of Python `int()` on an already-stripped token: an optional sign
followed by a digit sequence; `none` models `ValueError`. -/
def pyInt (l : List Char) : Option ℤ :=
  match l with
  | '-' :: rest => (pyIntDigits rest).map (fun n => -(n : ℤ))
  | '+' :: rest => (pyIntDigits rest).map (fun n => (n : ℤ))
  | _ => (pyIntDigits l).map (fun n => (n : ℤ))

/-- The `upstream_status` post-processing of parse_log_line (lines 163-173):
empty or `-` gives 0; otherwise split on commas, take the last token, strip it,
parse it as an integer, and fall back to 0 on a parse failure.  (The source
writes the guard positively, `if upstream_status and upstream_status != '-'`;
this is the contrapositive form.) -/
def statusField (v : List Char) : ℤ :=
  if v = [] ∨ v = ['-'] then 0
  else (pyInt (pyStrip ((splitComma v).getLast?.getD []))).getD 0

/-- The parsed record returned by parse_log_line (lines 175-180). -/
structure LogRecord where
  pool : List Char
  release : List Char
  upstream_status : ℤ
  upstream_addr : List Char
  deriving DecidableEq

/-- parse_log_line (lines 155-180): search for LOG_PATTERN, give up with `none`
on a mismatch, then build the record, mapping the `-` sentinel to `unknown` for
`pool` and `release` only. -/
def parse_log_line (line : List Char) : Option LogRecord :=
  match searchPat line with
  | none => none
  | some data =>
    some
      { pool := if data.pool = ['-'] then "unknown".data else data.pool
        release := if data.release = ['-'] then "unknown".data else data.release
        upstream_status := statusField data.upstream_status
        upstream_addr := data.upstream_addr }

/-- A full-pattern instance: the exact character sequence LOG_PATTERN matches
when the four groups capture `v1 v2 v3 v4`. -/
def patInstance (v1 v2 v3 v4 : List Char) : List Char :=
  poolPat ++ v1 ++ '"' ::
    (releasePat ++ v2 ++ '"' ::
      (statusPat ++ v3 ++ '"' ::
        (addrPat ++ v4 ++ ['"'])))

/-- Boolean prefix test on character lists. -/
def startsWithL : List Char → List Char → Bool
  | [], _ => true
  | _ :: _, [] => false
  | p :: ps, c :: cs => p = c && startsWithL ps cs

/-- Boolean contiguous-substring test on character lists. -/
def containsSub (p : List Char) : List Char → Bool
  | [] => startsWithL p []
  | c :: rest => startsWithL p (c :: rest) || containsSub p rest

/-! ## Error-rate window (request_window, lines 24 and 222-223, 128-132) -/

/-- `collections.deque(maxlen := C).append`: append on the right, evicting from
the left whenever the length would exceed the capacity. -/
def dequeAppend (C : ℕ) (w : List ℤ) (status : ℤ) : List ℤ :=
  let w2 := w ++ [status]
  if C < w2.length then w2.drop (w2.length - C) else w2

/-- The admission step of tail_log_file (lines 222-223): only `status > 0`
enters the window. -/
def trackRequest (C : ℕ) (w : List ℤ) (status : ℤ) : List ℤ :=
  if 0 < status then dequeAppend C w status else w

/-- The last `C` elements of a list (a deque with `maxlen := C` holds these). -/
def lastN (C : ℕ) (l : List ℤ) : List ℤ := l.drop (l.length - C)

/-- The rolling error rate of check_error_rate (lines 128-132), factored as the
spec's `rate()`: `none` below the 10-sample floor, otherwise the percentage of
statuses ≥ 500, in exact rational arithmetic. -/
def rate (w : List ℤ) : Option ℚ :=
  if w.length < 10 then none
  else some (((w.countP (fun status => decide (500 ≤ status)) : ℚ) / (w.length : ℚ)) * 100)

/-! ## Notifier (send_slack_alert, lines 36-89) -/

/-- Outcome of the `requests.post` call: a response with a status code, or an
exception (timeout, connection error, ...). -/
inductive HttpOutcome where
  | resp (status_code : ℕ)
  | exc
  deriving DecidableEq

/-- Console output of send_slack_alert, one constructor per print site (the
exact prose of the prints is abbreviated; `noWebhook` keeps the alert message,
which the no-webhook print embeds). -/
inductive ConsoleEvent where
  | noWebhook (message : List Char)
  | sentOk
  | failedStatus (code : ℕ)
  | failedExc
  deriving DecidableEq

/-- send_slack_alert (lines 36-89): returns False immediately when no webhook
URL is configured (printing the alert locally), True exactly on an HTTP 200
response, False on any other response, and False when the post raises.  The
second component is the console output. -/
def send_slack_alert (url message : List Char) (o : HttpOutcome) : Bool × List ConsoleEvent :=
  if url = [] then (false, [ConsoleEvent.noWebhook message])
  else
    match o with
    | HttpOutcome.resp code =>
      if code = 200 then (true, [ConsoleEvent.sentOk])
      else (false, [ConsoleEvent.failedStatus code])
    | HttpOutcome.exc => (false, [ConsoleEvent.failedExc])

/-! ## Watcher state and the two checkers (lines 22-26, 91-153) -/

/-- The module-level mutable state (lines 22-26): `last_pool = None`,
`request_window = deque(...)`, `last_failover_alert = 0`, `last_error_alert = 0`. -/
structure WatcherState where
  last_pool : Option (List Char)
  request_window : List ℤ
  last_failover_alert : ℚ
  last_error_alert : ℚ
  deriving DecidableEq

/-- The initial module-level state. -/
def initialState : WatcherState :=
  { last_pool := none, request_window := [], last_failover_alert := 0, last_error_alert := 0 }

/-- The failover alert text (line 110-117), abbreviated to its state-dependent
parts. -/
def failoverMessage (lastPool pool : List Char) : List Char :=
  "Failover Detected: ".data ++ lastPool ++ " to ".data ++ pool

/-- check_failover (lines 91-122).  `o` is the outcome of the Slack post the
firing branch performs; its result is discarded by the source.  Returns the new
state and whether the alert fired.  (The source tests `pool != last_pool` and
falls through on equality; here the equality case is listed first.) -/
def check_failover (cooldown : ℚ) (url : List Char) (o : HttpOutcome) (now : ℚ)
    (s : WatcherState) (pool : List Char) : WatcherState × Bool :=
  match s.last_pool with
  | none => ({ s with last_pool := some pool }, false)
  | some lp =>
    if pool = lp then (s, false)
    else if now - s.last_failover_alert < cooldown then
      ({ s with last_pool := some pool }, false)
    else
      let _ := send_slack_alert url (failoverMessage lp pool) o
      ({ s with last_failover_alert := now, last_pool := some pool }, true)

/-- check_error_rate (lines 124-153), with the rate computation factored
through `rate`.  `o` is the outcome of the Slack post of the firing branch; its
result is discarded by the source. -/
def check_error_rate (threshold cooldown : ℚ) (url : List Char) (o : HttpOutcome) (now : ℚ)
    (s : WatcherState) : WatcherState × Bool :=
  match rate s.request_window with
  | none => (s, false)
  | some error_rate =>
    if error_rate > threshold then
      if now - s.last_error_alert < cooldown then (s, false)
      else
        let _ := send_slack_alert url ("High Error Rate Alert".data) o
        ({ s with last_error_alert := now }, true)
    else (s, false)

/-- Run check_failover over a sequence of (timestamp, pool) observations. -/
def runFailover (cooldown : ℚ) (url : List Char) (o : HttpOutcome)
    (events : List (ℚ × List Char)) (s : WatcherState) : WatcherState :=
  events.foldl (fun st e => (check_failover cooldown url o e.1 st e.2).1) s

/-- A concrete log line whose four fields appear out of the LOG_PATTERN order. -/
def lineOutOfOrder : List Char :=
  "release=\"r\" pool=\"p\" upstream_status=\"s\" upstream_addr=\"a\"".data

/-- A concrete well-formed log line exercising the comma-separated
`upstream_status` retry list of Scenario C. -/
def lineScenarioC : List Char :=
  "pool=\"blue\" release=\"v1\" upstream_status=\"502,502,200\" upstream_addr=\"10.0.0.2:8080\"".data

/-- A concrete well-formed log line whose `upstream_addr` is the `-` sentinel. -/
def lineDashAddr : List Char :=
  "pool=\"-\" release=\"v1\" upstream_status=\"200\" upstream_addr=\"-\"".data

/-- A concrete line that is exactly one LOG_PATTERN instance. -/
def lineGood : List Char :=
  patInstance ("p".data) ("r".data) ("200".data) ("10.0.0.1:80".data)

/-! ## Helper lemmas: the bounded window -/

/-- The deque with `maxlen := C` keeps the last `C` elements after an append. -/
theorem dequeAppend_eq_lastN (C : ℕ) (w : List ℤ) (a : ℤ) :
    dequeAppend C w a = lastN C (w ++ [a]) := by
  simp only [dequeAppend, lastN]
  split
  · rfl
  · next h =>
    have h0 : (w ++ [a]).length - C = 0 := by omega
    rw [h0, List.drop_zero]

/-- `lastN` through reverse-and-take. -/
theorem lastN_eq_take_reverse (C : ℕ) (l : List ℤ) :
    lastN C l = (l.reverse.take C).reverse := by
  rw [List.take_reverse, List.reverse_reverse]
  rfl

/-- The last `C` of a list never exceed `C` elements. -/
theorem lastN_length_le (C : ℕ) (l : List ℤ) : (lastN C l).length ≤ C := by
  simp only [lastN, List.length_drop]
  omega

/-- Keeping only the last `C` elements before appending more does not change
the last `C` elements of the total. -/
theorem lastN_append_absorb (C : ℕ) (x y : List ℤ) :
    lastN C (lastN C x ++ y) = lastN C (x ++ y) := by
  simp only [lastN_eq_take_reverse, List.reverse_append, List.reverse_reverse,
    List.take_append_eq_append_take, List.take_take, List.length_reverse]
  rw [inf_eq_left.mpr (Nat.sub_le C y.length)]

/-- Folding deque appends from any admissible start leaves the last `C` of the
full history. -/
theorem foldl_dequeAppend (C : ℕ) :
    ∀ (l : List ℤ) (w0 : List ℤ), w0.length ≤ C →
      l.foldl (dequeAppend C) w0 = lastN C (w0 ++ l) := by
  intro l
  induction l with
  | nil =>
    intro w0 h
    simp only [List.foldl_nil, List.append_nil, lastN]
    have h0 : w0.length - C = 0 := by omega
    rw [h0, List.drop_zero]
  | cons a l' ih =>
    intro w0 h
    rw [List.foldl_cons, dequeAppend_eq_lastN,
      ih _ (by rw [← dequeAppend_eq_lastN]; exact (dequeAppend_eq_lastN C w0 a ▸ lastN_length_le C (w0 ++ [a]))),
      lastN_append_absorb, List.append_assoc]
    rfl

/-- On all-positive inputs, `trackRequest` coincides with the raw deque append. -/
theorem foldl_trackRequest_pos (C : ℕ) :
    ∀ (l : List ℤ) (w0 : List ℤ), (∀ s ∈ l, 0 < s) →
      l.foldl (trackRequest C) w0 = l.foldl (dequeAppend C) w0 := by
  intro l
  induction l with
  | nil => intro w0 _; rfl
  | cons a l' ih =>
    intro w0 hpos
    rw [List.foldl_cons, List.foldl_cons, trackRequest, if_pos (hpos a (List.mem_cons_self a l')),
      ih _ (fun s hs => hpos s (List.mem_cons_of_mem a hs))]

/-! ## Claim theorems -/

/-- C4: for every window capacity `C` and every sequence of at least `C`
admitted statuses (all positive), after recording them through the coordinator
admission step the window holds exactly the last `C` inserted statuses in
insertion order, and non-positive statuses are never admitted. -/
theorem c4_window_holds_last_C :
    (∀ (C : ℕ) (w0 l : List ℤ), w0.length ≤ C → C ≤ l.length → (∀ s ∈ l, 0 < s) →
        l.foldl (trackRequest C) w0 = l.drop (l.length - C)) ∧
    (∀ (C : ℕ) (w : List ℤ) (s : ℤ), s ≤ 0 → trackRequest C w s = w) := by
  constructor
  · intro C w0 l hw hl hpos
    rw [foldl_trackRequest_pos C l w0 hpos, foldl_dequeAppend C l w0 hw]
    simp only [lastN, List.length_append]
    rw [List.drop_append_eq_append_drop,
      List.drop_eq_nil_of_le (by omega : w0.length ≤ w0.length + l.length - C)]
    have he : w0.length + l.length - C - w0.length = l.length - C := by omega
    rw [he, List.nil_append]
  · intro C w s hs
    simp [trackRequest, not_lt.mpr hs]

/-- C4 witness: capacity 3, five positive statuses inserted into an initially
nonempty admissible window; only the last three remain, and a non-positive
status is rejected. -/
theorem c4_witness :
    [(1 : ℤ), 2, 3, 4, 5].foldl (trackRequest 3) [7] =
        [(1 : ℤ), 2, 3, 4, 5].drop ([(1 : ℤ), 2, 3, 4, 5].length - 3) ∧
      trackRequest 3 [(7 : ℤ)] 0 = [(7 : ℤ)] :=
  ⟨c4_window_holds_last_C.1 3 [7] [1, 2, 3, 4, 5] (by decide) (by decide) (by decide),
    c4_window_holds_last_C.2 3 [7] 0 (by decide)⟩

/-- C5: the rolling rate is `none` (insufficient data) below ten admitted
entries regardless of composition, and with `T ≥ 10` entries of which exactly
`E` are `≥ 500` it equals `E / T * 100` exactly. -/
theorem c5_rate_floor_and_value :
    (∀ w : List ℤ, w.length < 10 → rate w = none) ∧
    (∀ (w : List ℤ) (E T : ℕ), w.length = T →
        w.countP (fun status => decide (500 ≤ status)) = E → 10 ≤ T →
        rate w = some ((E : ℚ) / (T : ℚ) * 100)) := by
  constructor
  · intro w h
    simp [rate, h]
  · intro w E T hT hE h10
    subst hT
    subst hE
    rw [rate, if_neg (by omega)]

/-- C5 witness: a nine-entry window of errors still reports no rate; a
ten-entry window with one error reports exactly 10 percent. -/
theorem c5_witness :
    rate (List.replicate 9 (500 : ℤ)) = none ∧
      rate ((500 : ℤ) :: List.replicate 9 (200 : ℤ)) = some ((1 : ℚ) / (10 : ℚ) * 100) :=
  ⟨c5_rate_floor_and_value.1 _ (by decide),
    c5_rate_floor_and_value.2 _ 1 10 (by decide) (by decide) (by decide)⟩

/-- C6 counterexample: 204 is a 200-range response, yet the notifier reports
failure for it, so success is not "any 200-range response". -/
theorem c6_counterexample :
    ((200 : ℕ) ≤ 204 ∧ (204 : ℕ) < 300) ∧
      (send_slack_alert ("u".data) ("m".data) (HttpOutcome.resp 204)).1 = false := by
  decide

/-- C6 amended: with a configured webhook, the notifier reports success
exactly on an HTTP status equal to 200 (not the whole 200 range); an exception
(timeout, connection error) reports failure. -/
theorem c6_success_iff_status_200 :
    ∀ (url message : List Char) (code : ℕ), url ≠ [] →
      (((send_slack_alert url message (HttpOutcome.resp code)).1 = true ↔ code = 200) ∧
        (send_slack_alert url message HttpOutcome.exc).1 = false) := by
  intro url message code hurl
  constructor
  · by_cases hc : code = 200 <;> simp [send_slack_alert, hurl, hc]
  · simp [send_slack_alert, hurl]

/-- C6 witness: status 200 is reported as success, status 500 and an exception
as failure, for a concrete configured webhook. -/
theorem c6_witness :
    (send_slack_alert ("u".data) ("m".data) (HttpOutcome.resp 200)).1 = true ∧
      (send_slack_alert ("u".data) ("m".data) HttpOutcome.exc).1 = false :=
  ⟨((c6_success_iff_status_200 ("u".data) ("m".data) 200 (by decide)).1).mpr rfl,
    (c6_success_iff_status_200 ("u".data) ("m".data) 200 (by decide)).2⟩

/-- C8: the notifier reports the alert locally and returns false when no
webhook is configured, and every delivery failure (exception or non-200
response) is reported as the return value false. -/
theorem c8_notifier_never_raises :
    (∀ (message : List Char) (o : HttpOutcome),
        (send_slack_alert [] message o).1 = false ∧
          ConsoleEvent.noWebhook message ∈ (send_slack_alert [] message o).2) ∧
    (∀ url message : List Char, (send_slack_alert url message HttpOutcome.exc).1 = false) ∧
    (∀ (url message : List Char) (code : ℕ), code ≠ 200 →
        (send_slack_alert url message (HttpOutcome.resp code)).1 = false) := by
  refine ⟨fun message o => ?_, fun url message => ?_, fun url message code hc => ?_⟩
  · simp [send_slack_alert]
  · by_cases h : url = [] <;> simp [send_slack_alert, h]
  · by_cases h : url = [] <;> simp [send_slack_alert, h, hc]

/-- C8 witness: a concrete failed delivery (HTTP 503) returns false. -/
theorem c8_witness :
    (send_slack_alert ("u".data) ("m".data) (HttpOutcome.resp 503)).1 = false :=
  c8_notifier_never_raises.2.2 ("u".data) ("m".data) 503 (by decide)

/-! ## Helper lemmas: the failover detector -/

/-- After any single observation, the recorded pool is the observed pool (the
update happens in the baseline, suppressed and firing branches alike, and in
the equal case the recorded pool already is the observed one). -/
theorem check_failover_last_pool (cooldown : ℚ) (url : List Char) (o : HttpOutcome)
    (now : ℚ) (s : WatcherState) (pool : List Char) :
    (check_failover cooldown url o now s pool).1.last_pool = some pool := by
  cases hl : s.last_pool with
  | none => simp [check_failover, hl]
  | some lp =>
    by_cases h1 : pool = lp
    · simp [check_failover, hl, h1]
    · by_cases h2 : now - s.last_failover_alert < cooldown <;>
        simp [check_failover, hl, h1, h2]

/-- The window of ten server errors produces a 100 percent rate. -/
theorem rate_replicate_500 : rate (List.replicate 10 (500 : ℤ)) = some 100 := by
  have hc : (List.replicate 10 (500 : ℤ)).countP (fun status => decide (500 ≤ status)) = 10 := by
    decide
  simp only [rate, List.length_replicate, hc]
  norm_num

/-- The firing branch of check_failover: on a pool change outside the cooldown
window the checker alerts, stamps the timestamp and updates the pool. -/
theorem check_failover_fires (cooldown : ℚ) (url : List Char) (o : HttpOutcome) (now : ℚ)
    (s : WatcherState) (pool lp : List Char) (hlp : s.last_pool = some lp) (hne : pool ≠ lp)
    (hcd : cooldown ≤ now - s.last_failover_alert) :
    check_failover cooldown url o now s pool =
      ({ s with last_failover_alert := now, last_pool := some pool }, true) := by
  simp [check_failover, hlp, hne, not_lt.mpr hcd]

/-- The firing branch of check_error_rate: with an exceeded rate outside the
cooldown window the checker alerts and stamps the timestamp. -/
theorem check_error_rate_fires (threshold cooldown : ℚ) (url : List Char) (o : HttpOutcome)
    (now : ℚ) (s : WatcherState) (r : ℚ) (hr : rate s.request_window = some r)
    (hgt : r > threshold) (hcd : cooldown ≤ now - s.last_error_alert) :
    check_error_rate threshold cooldown url o now s =
      ({ s with last_error_alert := now }, true) := by
  simp [check_error_rate, hr, hgt, not_lt.mpr hcd]

/-- C2 counterexample: starting from the initial state (no alert has ever
fired, `last_failover_alert = 0`), a baseline observation at time 0 and a pool
change at time 1 with a 300-second cooldown do not fire — the code compares
against the sentinel `0`, so a never-fired kind is not always permitted to
fire. -/
theorem c2_counterexample :
    (check_failover 300 [] HttpOutcome.exc 0 initialState ("blue".data)).2 = false ∧
      (check_failover 300 [] HttpOutcome.exc 1
          (check_failover 300 [] HttpOutcome.exc 0 initialState ("blue".data)).1
          ("green".data)).2 = false := by
  have h1 : (check_failover 300 [] HttpOutcome.exc 0 initialState ("blue".data)).1 =
      ⟨some ("blue".data), [], 0, 0⟩ := rfl
  have hne : ("green".data : List Char) ≠ ("blue".data : List Char) := by decide
  refine ⟨rfl, ?_⟩
  rw [h1]
  simp [check_failover, hne]

/-- C2 amended: an identified anomaly fires exactly when
`now - last_fired ≥ cooldown`, where `last_fired` is initialised to the
sentinel `0` rather than to "no prior firing"; a kind that has never fired is
therefore permitted to fire exactly when `now ≥ cooldown` (true for realistic
wall-clock values of `now`), not for every `now`. -/
theorem c2_cooldown_gate :
    (∀ (cooldown : ℚ) (url : List Char) (o : HttpOutcome) (now : ℚ) (s : WatcherState)
        (pool lp : List Char), s.last_pool = some lp → pool ≠ lp →
        ((check_failover cooldown url o now s pool).2 = true ↔
          cooldown ≤ now - s.last_failover_alert)) ∧
    (∀ (threshold cooldown : ℚ) (url : List Char) (o : HttpOutcome) (now : ℚ)
        (s : WatcherState) (r : ℚ), rate s.request_window = some r → r > threshold →
        ((check_error_rate threshold cooldown url o now s).2 = true ↔
          cooldown ≤ now - s.last_error_alert)) := by
  constructor
  · intro cooldown url o now s pool lp hlp hne
    by_cases h2 : now - s.last_failover_alert < cooldown
    · simp [check_failover, hlp, hne, h2, not_le.mpr h2]
    · simp [check_failover, hlp, hne, h2, not_lt.mp h2]
  · intro threshold cooldown url o now s r hr hgt
    by_cases h2 : now - s.last_error_alert < cooldown
    · simp [check_error_rate, hr, hgt, h2, not_le.mpr h2]
    · simp [check_error_rate, hr, hgt, h2, not_lt.mp h2]

/-- C2 witness: with `last_fired = 0`, a pool change at time 400 under a
300-second cooldown fires, and so does an exceeded error rate. -/
theorem c2_witness :
    (check_failover 300 ("u".data) HttpOutcome.exc 400
        ⟨some ("a".data), List.replicate 10 500, 0, 0⟩ ("b".data)).2 = true ∧
      (check_error_rate 2 300 ("u".data) HttpOutcome.exc 400
        ⟨some ("a".data), List.replicate 10 500, 0, 0⟩).2 = true :=
  ⟨(c2_cooldown_gate.1 300 ("u".data) HttpOutcome.exc 400
      ⟨some ("a".data), List.replicate 10 500, 0, 0⟩ ("b".data) ("a".data) rfl
      (by decide)).mpr (by norm_num),
    (c2_cooldown_gate.2 2 300 ("u".data) HttpOutcome.exc 400
      ⟨some ("a".data), List.replicate 10 500, 0, 0⟩ 100 rate_replicate_500
      (by norm_num)).mpr (by norm_num)⟩

/-- C3: over any nonempty sequence of observations the detector's recorded
pool is the most recently observed pool, and a change detected during the
cooldown window is suppressed yet still updates the recorded pool. -/
theorem c3_detector_tracks_latest_pool :
    (∀ (cooldown : ℚ) (url : List Char) (o : HttpOutcome) (events : List (ℚ × List Char))
        (s : WatcherState) (e : ℚ × List Char), events.getLast? = some e →
        (runFailover cooldown url o events s).last_pool = some e.2) ∧
    (∀ (cooldown : ℚ) (url : List Char) (o : HttpOutcome) (now : ℚ) (s : WatcherState)
        (pool lp : List Char), s.last_pool = some lp → pool ≠ lp →
        now - s.last_failover_alert < cooldown →
        (check_failover cooldown url o now s pool).2 = false ∧
        (check_failover cooldown url o now s pool).1.last_pool = some pool) := by
  constructor
  · intro cooldown url o events
    induction events with
    | nil => intro s e he; simp at he
    | cons a rest ih =>
      intro s e he
      cases rest with
      | nil =>
        rw [List.getLast?_singleton] at he
        cases he
        simpa [runFailover] using check_failover_last_pool cooldown url o a.1 s a.2
      | cons b rest' =>
        rw [List.getLast?_cons_cons] at he
        simpa [runFailover] using
          ih ((check_failover cooldown url o a.1 s a.2).1) e he
  · intro cooldown url o now s pool lp hlp hne hcd
    constructor <;> simp [check_failover, hlp, hne, hcd]

/-- C3 witness: two failover events one second apart under a 300-second
cooldown leave the recorded pool at the second event's target, and the
suppressed second change still updates the recorded pool while not firing. -/
theorem c3_witness :
    (runFailover 300 [] HttpOutcome.exc
        [(0, "blue".data), (1, "green".data)] initialState).last_pool =
      some ("green".data) ∧
      (check_failover 300 [] HttpOutcome.exc 1
          ⟨some ("blue".data), [], 0, 0⟩ ("green".data)).2 = false ∧
      (check_failover 300 [] HttpOutcome.exc 1
          ⟨some ("blue".data), [], 0, 0⟩ ("green".data)).1.last_pool =
        some ("green".data) :=
  ⟨c3_detector_tracks_latest_pool.1 300 [] HttpOutcome.exc
      [(0, "blue".data), (1, "green".data)] initialState (1, "green".data) (by decide),
    (c3_detector_tracks_latest_pool.2 300 [] HttpOutcome.exc 1
      ⟨some ("blue".data), [], 0, 0⟩ ("green".data) ("blue".data) rfl (by decide)
      (by norm_num)).1,
    (c3_detector_tracks_latest_pool.2 300 [] HttpOutcome.exc 1
      ⟨some ("blue".data), [], 0, 0⟩ ("green".data) ("blue".data) rfl (by decide)
      (by norm_num)).2⟩

/-- C7: firing either alert stamps the corresponding cooldown timestamp with
the firing time, and the entire checker result is independent of the delivery
outcome — suppression is based on attempt time, not delivery success. -/
theorem c7_cooldown_stamps_attempt_time :
    ∀ (threshold cooldown : ℚ) (url : List Char) (o o' : HttpOutcome) (now : ℚ)
      (s : WatcherState) (pool : List Char),
      (check_failover cooldown url o now s pool = check_failover cooldown url o' now s pool) ∧
      ((check_failover cooldown url o now s pool).2 = true →
        (check_failover cooldown url o now s pool).1.last_failover_alert = now) ∧
      (check_error_rate threshold cooldown url o now s =
        check_error_rate threshold cooldown url o' now s) ∧
      ((check_error_rate threshold cooldown url o now s).2 = true →
        (check_error_rate threshold cooldown url o now s).1.last_error_alert = now) := by
  intro threshold cooldown url o o' now s pool
  refine ⟨?_, ?_, ?_, ?_⟩
  · cases hl : s.last_pool with
    | none => simp [check_failover, hl]
    | some lp =>
      by_cases h1 : pool = lp
      · simp [check_failover, hl, h1]
      · by_cases h2 : now - s.last_failover_alert < cooldown <;>
          simp [check_failover, hl, h1, h2]
  · cases hl : s.last_pool with
    | none => simp [check_failover, hl]
    | some lp =>
      by_cases h1 : pool = lp
      · simp [check_failover, hl, h1]
      · by_cases h2 : now - s.last_failover_alert < cooldown <;>
          simp [check_failover, hl, h1, h2]
  · cases hr : rate s.request_window with
    | none => simp [check_error_rate, hr]
    | some r =>
      by_cases h1 : r > threshold
      · by_cases h2 : now - s.last_error_alert < cooldown <;>
          simp [check_error_rate, hr, h1, h2]
      · simp [check_error_rate, hr, h1]
  · cases hr : rate s.request_window with
    | none => simp [check_error_rate, hr]
    | some r =>
      by_cases h1 : r > threshold
      · by_cases h2 : now - s.last_error_alert < cooldown <;>
          simp [check_error_rate, hr, h1, h2]
      · simp [check_error_rate, hr, h1]

/-- C7 witness: concrete firing alerts stamp their cooldown timestamps with
the firing time 400, and a delivery failure outcome yields the same checker
result as a delivery success outcome. -/
theorem c7_witness :
    (check_failover 300 ("u".data) HttpOutcome.exc 400
        ⟨some ("a".data), List.replicate 10 500, 0, 0⟩
        ("b".data)).1.last_failover_alert = 400 ∧
      (check_error_rate 2 300 ("u".data) HttpOutcome.exc 400
        ⟨some ("a".data), List.replicate 10 500, 0, 0⟩).1.last_error_alert = 400 ∧
      check_failover 300 ("u".data) HttpOutcome.exc 400
          ⟨some ("a".data), List.replicate 10 500, 0, 0⟩ ("b".data) =
        check_failover 300 ("u".data) (HttpOutcome.resp 200) 400
          ⟨some ("a".data), List.replicate 10 500, 0, 0⟩ ("b".data) := by
  have h := c7_cooldown_stamps_attempt_time 2 300 ("u".data) HttpOutcome.exc
    (HttpOutcome.resp 200) 400 ⟨some ("a".data), List.replicate 10 500, 0, 0⟩ ("b".data)
  have hf : (check_failover 300 ("u".data) HttpOutcome.exc 400
      ⟨some ("a".data), List.replicate 10 500, 0, 0⟩ ("b".data)).2 = true := by
    rw [check_failover_fires 300 ("u".data) HttpOutcome.exc 400
      ⟨some ("a".data), List.replicate 10 500, 0, 0⟩ ("b".data) ("a".data) rfl (by decide)
      (by norm_num)]
  have he : (check_error_rate 2 300 ("u".data) HttpOutcome.exc 400
      ⟨some ("a".data), List.replicate 10 500, 0, 0⟩).2 = true := by
    rw [check_error_rate_fires 2 300 ("u".data) HttpOutcome.exc 400
      ⟨some ("a".data), List.replicate 10 500, 0, 0⟩ 100 rate_replicate_500 (by norm_num)
      (by norm_num)]
  exact ⟨h.2.1 hf, h.2.2.2 he, h.1⟩

/-! ## Helper lemmas: comma splitting and the status field -/

/-- Splitting never yields an empty token list. -/
theorem splitComma_ne_nil (l : List Char) : splitComma l ≠ [] := by
  cases l with
  | nil => simp [splitComma]
  | cons c rest =>
    simp only [splitComma]
    split <;> simp

/-- A comma-free string splits into the single token equal to itself. -/
theorem splitComma_no_comma (t : List Char) (h : ',' ∉ t) : splitComma t = [t] := by
  induction t with
  | nil => rfl
  | cons c rest ih =>
    have hc : c ≠ ',' := fun e => h (e ▸ List.mem_cons_self c rest)
    have hr : ',' ∉ rest := fun m => h (List.mem_cons_of_mem c m)
    simp [splitComma, hc, ih hr]

/-- Unfolding `splitComma` on a leading comma. -/
theorem splitComma_comma_cons (rest : List Char) :
    splitComma (',' :: rest) = [] :: splitComma rest := by
  simp [splitComma]

/-- Unfolding `splitComma` on a leading non-comma character. -/
theorem splitComma_cons_ne (c : Char) (rest : List Char) (hc : c ≠ ',') :
    splitComma (c :: rest) = (c :: (splitComma rest).headD []) :: (splitComma rest).tail := by
  simp [splitComma, hc]

/-- A string containing a comma splits into at least two tokens. -/
theorem splitComma_append_comma_length (a t : List Char) :
    2 ≤ (splitComma (a ++ ',' :: t)).length := by
  induction a with
  | nil =>
    have h := List.length_pos.mpr (splitComma_ne_nil t)
    rw [List.nil_append, splitComma_comma_cons, List.length_cons]
    omega
  | cons c a' ih =>
    by_cases hc : c = ','
    · subst hc
      have h := List.length_pos.mpr (splitComma_ne_nil (a' ++ ',' :: t))
      rw [List.cons_append, splitComma_comma_cons, List.length_cons]
      omega
    · rw [List.cons_append, splitComma_cons_ne c _ hc, List.length_cons, List.length_tail]
      omega

/-- The last token of a split only depends on the part after the last comma:
prepending `a ++ ","` does not change it. -/
theorem getLast?_splitComma_append (a t : List Char) :
    (splitComma (a ++ ',' :: t)).getLast? = (splitComma t).getLast? := by
  induction a with
  | nil =>
    rw [List.nil_append, splitComma_comma_cons]
    cases h : splitComma t with
    | nil => exact absurd h (splitComma_ne_nil t)
    | cons u us => rw [List.getLast?_cons_cons]
  | cons c a' ih =>
    by_cases hc : c = ','
    · subst hc
      rw [List.cons_append, splitComma_comma_cons]
      cases h : splitComma (a' ++ ',' :: t) with
      | nil => exact absurd h (splitComma_ne_nil _)
      | cons u us => rw [List.getLast?_cons_cons, ← h, ih]
    · rw [List.cons_append, splitComma_cons_ne c _ hc]
      have h2 := splitComma_append_comma_length a' t
      cases h : splitComma (a' ++ ',' :: t) with
      | nil => exact absurd h (splitComma_ne_nil _)
      | cons u us =>
        cases us with
        | nil => rw [h] at h2; simp at h2
        | cons v vs =>
          rw [← ih, h, List.headD_cons, List.tail_cons, List.getLast?_cons_cons,
            List.getLast?_cons_cons]

/-- C9: for a comma-separated `upstream_status` value, only the final element
determines the recorded status (everything before the last comma is ignored);
an unparseable final token records 0; and the Scenario C line with
`upstream_status="502,502,200"` records 200. -/
theorem c9_last_status_token :
    (∀ a t : List Char, ',' ∉ t →
        statusField (a ++ ',' :: t) = (pyInt (pyStrip t)).getD 0) ∧
    (∀ a t : List Char, ',' ∉ t → pyInt (pyStrip t) = none →
        statusField (a ++ ',' :: t) = 0) ∧
    (parse_log_line lineScenarioC).map LogRecord.upstream_status = some 200 := by
  have part1 : ∀ a t : List Char, ',' ∉ t →
      statusField (a ++ ',' :: t) = (pyInt (pyStrip t)).getD 0 := by
    intro a t ht
    have hne : a ++ ',' :: t ≠ [] := by simp
    have hnd : a ++ ',' :: t ≠ ['-'] := by
      cases a with
      | nil =>
        intro h
        rw [List.nil_append] at h
        injection h with h1 h2
        exact absurd h1 (by decide)
      | cons c a' =>
        intro h
        rw [List.cons_append] at h
        injection h with h1 h2
        simp at h2
    simp only [statusField]
    rw [if_neg (by push_neg; exact ⟨hne, hnd⟩)]
    rw [getLast?_splitComma_append, splitComma_no_comma t ht]
    rw [List.getLast?_singleton]
    rfl
  refine ⟨part1, fun a t ht hp => ?_, ?_⟩
  · rw [part1 a t ht, hp]
    rfl
  · rfl

/-- C9 witness: the comma list `502,502,200` records 200 (applying the claim
at the concrete decomposition `502,502` before the final comma), and a comma
list whose final token `x7` is unparseable records 0. -/
theorem c9_witness :
    statusField ("502,502,200".data) = 200 ∧ statusField ("1,x7".data) = 0 := by
  have e1 : ("502,502,200".data : List Char) = "502,502".data ++ ',' :: "200".data := by decide
  have e2 : ("1,x7".data : List Char) = "1".data ++ ',' :: "x7".data := by decide
  have h1 := c9_last_status_token.1 ("502,502".data) ("200".data) (by decide)
  have h2 := c9_last_status_token.2.1 ("1".data) ("x7".data) (by decide) (by decide)
  rw [e1, e2, h1, h2]
  exact ⟨rfl, rfl⟩

/-! ## Helper lemmas: the pattern matcher -/

/-- `dropLit` succeeds on exactly the inputs beginning with the literal. -/
theorem dropLit_self_append (p l : List Char) : dropLit p (p ++ l) = some l := by
  induction p with
  | nil => rfl
  | cons c ps ih => simp [dropLit, ih]

/-- A successful `dropLit` decomposes its input. -/
theorem dropLit_eq_some (p : List Char) :
    ∀ l l', dropLit p l = some l' → l = p ++ l' := by
  induction p with
  | nil =>
    intro l l' h
    simp only [dropLit, Option.some.injEq] at h
    rw [h, List.nil_append]
  | cons c ps ih =>
    intro l l' h
    cases l with
    | nil => exact absurd h (by simp [dropLit])
    | cons d ds =>
      simp only [dropLit] at h
      by_cases hd : d = c
      · rw [if_pos hd] at h
        rw [hd, List.cons_append, ← ih ds l' h]
      · rw [if_neg hd] at h
        cases h

/-- `readValue` consumes a quote-free value up to its closing quote. -/
theorem readValue_append_quote {v l : List Char} (hv : '"' ∉ v) :
    readValue (v ++ '"' :: l) = some (v, l) := by
  induction v with
  | nil => simp [readValue]
  | cons c cs ih =>
    have hc : c ≠ '"' := fun e => hv (e ▸ List.mem_cons_self c cs)
    have hcs : '"' ∉ cs := fun m => hv (List.mem_cons_of_mem c m)
    rw [List.cons_append]
    simp only [readValue]
    rw [if_neg hc, ih hcs]

/-- A successful `readValue` decomposes its input at the first quote, and the
captured value is quote-free. -/
theorem readValue_eq_some : ∀ (l v l' : List Char), readValue l = some (v, l') →
    l = v ++ '"' :: l' ∧ '"' ∉ v := by
  intro l
  induction l with
  | nil => intro v l' h; exact absurd h (by simp [readValue])
  | cons c cs ih =>
    intro v l' h
    by_cases hc : c = '"'
    · subst hc
      simp only [readValue, if_pos rfl, ite_true, Option.some.injEq, Prod.mk.injEq] at h
      obtain ⟨hv, hl⟩ := h
      subst hv
      subst hl
      exact ⟨rfl, by simp⟩
    · simp only [readValue] at h
      rw [if_neg hc] at h
      cases hr : readValue cs with
      | none => rw [hr] at h; simp at h
      | some p =>
        rw [hr] at h
        obtain ⟨v0, r0⟩ := p
        simp only [Option.some.injEq, Prod.mk.injEq] at h
        obtain ⟨hv, hl⟩ := h
        obtain ⟨he, hq⟩ := ih v0 r0 hr
        subst hv
        subst hl
        refine ⟨by rw [he, List.cons_append], ?_⟩
        intro m
        rcases List.mem_cons.mp m with h1 | h2
        · exact hc h1.symm
        · exact hq h2

/-- `matchAt` succeeds on every full-pattern instance, capturing the four
quote-free groups. -/
theorem matchAt_patInstance (v1 v2 v3 v4 suf : List Char)
    (h1 : '"' ∉ v1) (h2 : '"' ∉ v2) (h3 : '"' ∉ v3) (h4 : '"' ∉ v4) :
    matchAt (patInstance v1 v2 v3 v4 ++ suf) = some ⟨v1, v2, v3, v4⟩ := by
  have e0 : patInstance v1 v2 v3 v4 ++ suf =
      poolPat ++ (v1 ++ '"' :: (releasePat ++ (v2 ++ '"' :: (statusPat ++ (v3 ++ '"' ::
        (addrPat ++ (v4 ++ '"' :: suf))))))) := by
    simp [patInstance, List.append_assoc]
  rw [e0]
  simp only [matchAt, dropLit_self_append, Option.some_bind,
    readValue_append_quote h1, readValue_append_quote h2,
    readValue_append_quote h3, readValue_append_quote h4]

/-- A successful `matchAt` decomposes its input as a full pattern instance
followed by a suffix, with quote-free captured groups. -/
theorem matchAt_eq_some (l : List Char) (f : RawFields) (h : matchAt l = some f) :
    ∃ suf, l = patInstance f.pool f.release f.upstream_status f.upstream_addr ++ suf ∧
      '"' ∉ f.pool ∧ '"' ∉ f.release ∧ '"' ∉ f.upstream_status ∧ '"' ∉ f.upstream_addr := by
  simp only [matchAt, Option.bind_eq_some] at h
  obtain ⟨l1, hd1, p1, hr1, l3, hd2, p2, hr2, l5, hd3, p3, hr3, l7, hd4, p4, hr4, hf⟩ := h
  obtain ⟨v1, r1⟩ := p1
  obtain ⟨v2, r2⟩ := p2
  obtain ⟨v3, r3⟩ := p3
  obtain ⟨v4, r4⟩ := p4
  simp only [Option.some.injEq] at hf
  subst hf
  obtain ⟨he1, hq1⟩ := readValue_eq_some l1 v1 r1 hr1
  obtain ⟨he2, hq2⟩ := readValue_eq_some l3 v2 r2 hr2
  obtain ⟨he3, hq3⟩ := readValue_eq_some l5 v3 r3 hr3
  obtain ⟨he4, hq4⟩ := readValue_eq_some l7 v4 r4 hr4
  refine ⟨r4, ?_, hq1, hq2, hq3, hq4⟩
  rw [dropLit_eq_some poolPat l l1 hd1, he1, dropLit_eq_some releasePat r1 l3 hd2, he2,
    dropLit_eq_some statusPat r2 l5 hd3, he3, dropLit_eq_some addrPat r3 l7 hd4, he4]
  simp [patInstance, List.append_assoc]

/-- A match somewhere in the input makes the search succeed. -/
theorem searchPat_isSome_of (pre l : List Char) (h : (matchAt l).isSome = true) :
    (searchPat (pre ++ l)).isSome = true := by
  induction pre with
  | nil =>
    cases l with
    | nil => exact absurd h (by decide)
    | cons c cs =>
      rw [List.nil_append]
      simp only [searchPat]
      cases hm : matchAt (c :: cs) with
      | some r => simp
      | none => rw [hm] at h; simp at h
  | cons c pre' ih =>
    rw [List.cons_append]
    simp only [searchPat]
    cases hm : matchAt (c :: (pre' ++ l)) with
    | some r => simp
    | none => simpa using ih

/-- A successful search decomposes the input around a successful match. -/
theorem searchPat_eq_some (l : List Char) (f : RawFields) (h : searchPat l = some f) :
    ∃ pre rest, l = pre ++ rest ∧ matchAt rest = some f := by
  induction l with
  | nil => exact absurd h (by simp [searchPat])
  | cons c cs ih =>
    simp only [searchPat] at h
    cases hm : matchAt (c :: cs) with
    | some r =>
      rw [hm] at h
      simp only [Option.some.injEq] at h
      exact ⟨[], c :: cs, rfl, by rw [hm, h]⟩
    | none =>
      rw [hm] at h
      obtain ⟨pre, rest, he, hm2⟩ := ih h
      exact ⟨c :: pre, rest, by rw [List.cons_append, ← he], hm2⟩

/-- C1 counterexample: a line containing all four `key="value"` substrings but
with `release` before `pool` (out of the LOG_PATTERN order) is rejected by
parse_log_line, so "in any order" does not hold. -/
theorem c1_counterexample :
    containsSub ("pool=\"p\"".data) lineOutOfOrder = true ∧
      containsSub ("release=\"r\"".data) lineOutOfOrder = true ∧
      containsSub ("upstream_status=\"s\"".data) lineOutOfOrder = true ∧
      containsSub ("upstream_addr=\"a\"".data) lineOutOfOrder = true ∧
      parse_log_line lineOutOfOrder = none := by
  decide

/-- C1 amended: parse_log_line returns a record exactly when the line
contains, as one contiguous substring, the four fields in the fixed order
`pool="…" release="…" upstream_status="…" upstream_addr="…"`, separated by
single spaces, with quote-free values; lines whose field set appears in any
other order or spacing yield `none`. -/
theorem c1_parse_iff_ordered_pattern :
    ∀ l : List Char,
      (parse_log_line l).isSome = true ↔
        ∃ pre v1 v2 v3 v4 suf,
          ('"' ∉ v1 ∧ '"' ∉ v2 ∧ '"' ∉ v3 ∧ '"' ∉ v4) ∧
            l = pre ++ patInstance v1 v2 v3 v4 ++ suf := by
  intro l
  constructor
  · intro h
    obtain ⟨f, hf⟩ : ∃ f, searchPat l = some f := by
      cases hs : searchPat l with
      | none => rw [parse_log_line, hs] at h; simp at h
      | some f => exact ⟨f, rfl⟩
    obtain ⟨pre, rest, hl, hm⟩ := searchPat_eq_some l f hf
    obtain ⟨suf, hrest, hq1, hq2, hq3, hq4⟩ := matchAt_eq_some rest f hm
    exact ⟨pre, f.pool, f.release, f.upstream_status, f.upstream_addr, suf,
      ⟨hq1, hq2, hq3, hq4⟩, by rw [hl, hrest, List.append_assoc]⟩
  · rintro ⟨pre, v1, v2, v3, v4, suf, ⟨h1, h2, h3, h4⟩, rfl⟩
    have hm : (matchAt (patInstance v1 v2 v3 v4 ++ suf)).isSome = true := by
      rw [matchAt_patInstance v1 v2 v3 v4 suf h1 h2 h3 h4]
      rfl
    have hs := searchPat_isSome_of pre (patInstance v1 v2 v3 v4 ++ suf) hm
    rw [← List.append_assoc] at hs
    obtain ⟨f, hf⟩ := Option.isSome_iff_exists.mp hs
    rw [parse_log_line, hf]
    rfl

/-- C1 witness: a line that is exactly one well-formed pattern instance is
parsed to a record. -/
theorem c1_witness : (parse_log_line lineGood).isSome = true :=
  (c1_parse_iff_ordered_pattern lineGood).mpr
    ⟨[], "p".data, "r".data, "200".data, "10.0.0.1:80".data, [],
      ⟨by decide, by decide, by decide, by decide⟩, by simp [lineGood]⟩

/-- C10: whenever the pattern matches, the record's `upstream_addr` is the
captured group verbatim — in particular the `-` sentinel is kept as the
literal `-`, while the `pool` field is rewritten to `unknown` on `-`. -/
theorem c10_upstream_addr_verbatim :
    ∀ (l : List Char) (f : RawFields), searchPat l = some f →
      ∃ r : LogRecord, parse_log_line l = some r ∧
        r.upstream_addr = f.upstream_addr ∧
        (f.upstream_addr = ['-'] → r.upstream_addr = ['-']) ∧
        (f.pool = ['-'] → r.pool = "unknown".data) := by
  intro l f h
  rw [parse_log_line, h]
  refine ⟨_, rfl, rfl, fun hd => hd, fun hp => ?_⟩
  simp [hp]

/-- C10 witness: the concrete line with `upstream_addr="-"` and `pool="-"`
parses to a record carrying the literal `-` address (not `unknown`) while its
pool is rewritten to `unknown`. -/
theorem c10_witness :
    (parse_log_line lineDashAddr).map LogRecord.upstream_addr = some ['-'] ∧
      (parse_log_line lineDashAddr).map LogRecord.pool = some ("unknown".data) := by
  obtain ⟨r, hr, ha, hd, hp⟩ := c10_upstream_addr_verbatim lineDashAddr
    ⟨"-".data, "v1".data, "200".data, "-".data⟩ (by decide)
  rw [hr, Option.map_some', Option.map_some', hd (by decide), hp (by decide)]
  exact ⟨rfl, rfl⟩
